import Mathlib

/-!
Shallow embedding of the core of the immigration-audit document pipeline
(`models/document_processor.py` and `models/validators.py`): the page
classifier, continuation detector, segment grouper, flexible date parser
and the person-record consolidation logic, together with theorems checking
the natural-language specification against this embedding.

Page texts and extracted field values are modelled as Lean `String`s /
`List Char`; Python regular-expression searches used by the source are
modelled as explicit decidable search functions; Python `datetime.date`
values are modelled by the `PDate` structure with the same lexicographic
comparison; Python's stable `list.sort` is modelled by an insertion-based
stable sort (`pySortBy`); Python `dict`s keyed by strings are modelled as
insertion-ordered association lists.
-/

namespace ImmigrationAudit

/-! ### Character and string helpers (Python `str` operations) -/

/-- Python's `str.lower()` restricted to the ASCII range, on a char list. -/
def lcList (l : List Char) : List Char := l.map Char.toLower

/-- Python whitespace characters recognised by `str.strip()` (ASCII subset). -/
def isSpaceC (c : Char) : Bool :=
  c = ' ' || c = '\t' || c = '\n' || c = '\r' || c = '\x0b' || c = '\x0c'

/-- Python's `str.strip()`: drop leading and trailing whitespace. -/
def pyStrip (l : List Char) : List Char :=
  ((l.dropWhile isSpaceC).reverse.dropWhile isSpaceC).reverse

/-- `re.search` semantics: the position predicate `p` holds at some
position of the input (including the empty position at the end). -/
def searchAny (p : List Char → Bool) : List Char → Bool
  | [] => p []
  | c :: cs => p (c :: cs) || searchAny p cs

/-- Substring containment: `needle in hay` on Python strings. -/
def containsSub (hay needle : List Char) : Bool :=
  searchAny (fun s => needle.isPrefixOf s) hay

/-- `needle in hay.lower()` for a lowercase literal `needle`. -/
def containsLower (hay : String) (needle : String) : Bool :=
  containsSub (lcList hay.data) needle.data

/-- ASCII decimal digit (`\d` on ASCII input). -/
def isDigitC (c : Char) : Bool := '0' ≤ c && c ≤ '9'

/-- Lowercase ASCII letter; `[A-Z]` under `re.IGNORECASE` on lowercased text. -/
def isLowerAlphaC (c : Char) : Bool := 'a' ≤ c && c ≤ 'z'

/-- Any ASCII letter (`[A-Za-z]`). -/
def isAlphaC (c : Char) : Bool :=
  isLowerAlphaC c || ('A' ≤ c && c ≤ 'Z')

/-- `[A-Z0-9]` under `re.IGNORECASE` on lowercased text. -/
def isAlnumLowerC (c : Char) : Bool := isLowerAlphaC c || isDigitC c

/-- Regex word character `\w` on lowercased ASCII text. -/
def isWordC (c : Char) : Bool := isAlnumLowerC c || c = '_'

/-- Match a literal pattern at the head of the input, returning the rest. -/
def matchLit (pat l : List Char) : Option (List Char) :=
  if pat.isPrefixOf l then some (l.drop pat.length) else none

/-- Match exactly `n` characters of class `cls` at the head of the input. -/
def matchClassN (cls : Char → Bool) : Nat → List Char → Option (List Char)
  | 0, l => some l
  | _ + 1, [] => none
  | n + 1, c :: cs => if cls c then matchClassN cls n cs else none

/-- Regex `.*P` at the current position: skip any run of non-newline
characters, then require `q` to hold on the remainder. -/
def dotStarThen (q : List Char → Bool) : List Char → Bool
  | [] => q []
  | c :: cs => q (c :: cs) || (c ≠ '\n' && dotStarThen q cs)

/-! ### Calendar dates (`datetime.date`) -/

/-- Model of a Python `datetime.date` value. -/
structure PDate where
  year : Nat
  month : Nat
  day : Nat
deriving DecidableEq, Repr

/-- Python date comparison `a <= b`: lexicographic on (year, month, day). -/
def PDate.le (a b : PDate) : Bool :=
  a.year < b.year ||
    (a.year = b.year &&
      (a.month < b.month || (a.month = b.month && a.day ≤ b.day)))

/-- Python date comparison `a < b`: lexicographic on (year, month, day). -/
def PDate.lt (a b : PDate) : Bool :=
  a.year < b.year ||
    (a.year = b.year &&
      (a.month < b.month || (a.month = b.month && a.day < b.day)))

/-! ### Stable sorting (Python `list.sort` / `sorted`)

`insertByKeep keep x l` inserts `x` after every element `y` of `l` with
`keep y x = true`; folding it over a list from the left therefore yields a
stable sort for the total preorder whose "`y` may stay before `x`" test is
`keep`.  This models Python's stable `list.sort(key=...)` and
`sorted(..., key=..., reverse=...)`. -/

def insertByKeep {α : Type} (keep : α → α → Bool) (x : α) : List α → List α
  | [] => [x]
  | y :: ys => if keep y x then y :: insertByKeep keep x ys else x :: y :: ys

def pySortBy {α : Type} (keep : α → α → Bool) (l : List α) : List α :=
  l.foldl (fun acc x => insertByKeep keep x acc) []

/-! ### Flexible date parsing (`validators.parse_date_flexible`)

`datetime.strptime` is modelled per directive following CPython's
`_strptime` regular expressions (`%d` = `3[01]|[12]\d|0[1-9]|[1-9]| [1-9]`,
`%m` = `1[0-2]|0[1-9]|[1-9]`, `%Y` = `\d{4}`, `%y` = `\d\d`, month names
case-insensitive, whitespace in the format matching `\s+`), with ordered
alternation (regex backtracking preference) and full-input consumption,
followed by calendar validation as performed by `datetime.date`. -/

/-- Numeric value of an ASCII digit. -/
def dval (c : Char) : Nat := c.toNat - '0'.toNat

/-- Possible parses (in regex preference order) of CPython's `%d` day
directive: `3[01]|[12]\d|0[1-9]|[1-9]| [1-9]`. -/
def pDay (l : List Char) : List (Nat × List Char) :=
  (match l with
    | '3' :: c :: rest =>
      if c = '0' || c = '1' then [(30 + dval c, rest)] else []
    | _ => []) ++
  (match l with
    | a :: c :: rest =>
      if (a = '1' || a = '2') && isDigitC c then [(10 * dval a + dval c, rest)]
      else []
    | _ => []) ++
  (match l with
    | '0' :: c :: rest =>
      if '1' ≤ c && c ≤ '9' then [(dval c, rest)] else []
    | _ => []) ++
  (match l with
    | c :: rest => if '1' ≤ c && c ≤ '9' then [(dval c, rest)] else []
    | _ => []) ++
  (match l with
    | ' ' :: c :: rest => if '1' ≤ c && c ≤ '9' then [(dval c, rest)] else []
    | _ => [])

/-- Possible parses of CPython's `%m` month directive:
`1[0-2]|0[1-9]|[1-9]`. -/
def pMonthNum (l : List Char) : List (Nat × List Char) :=
  (match l with
    | '1' :: c :: rest =>
      if c = '0' || c = '1' || c = '2' then [(10 + dval c, rest)] else []
    | _ => []) ++
  (match l with
    | '0' :: c :: rest =>
      if '1' ≤ c && c ≤ '9' then [(dval c, rest)] else []
    | _ => []) ++
  (match l with
    | c :: rest => if '1' ≤ c && c ≤ '9' then [(dval c, rest)] else []
    | _ => [])

/-- `%Y`: exactly four digits. -/
def pYear4 (l : List Char) : List (Nat × List Char) :=
  match l with
  | a :: b :: c :: d :: rest =>
    if isDigitC a && isDigitC b && isDigitC c && isDigitC d then
      [(1000 * dval a + 100 * dval b + 10 * dval c + dval d, rest)]
    else []
  | _ => []

/-- `%y`: exactly two digits, with CPython's century rule
(≤ 68 → 2000s, otherwise 1900s). -/
def pYear2 (l : List Char) : List (Nat × List Char) :=
  match l with
  | a :: b :: rest =>
    if isDigitC a && isDigitC b then
      let v := 10 * dval a + dval b
      [(if v ≤ 68 then 2000 + v else 1900 + v, rest)]
    else []
  | _ => []

/-- Abbreviated month names for `%b` (C locale), lowercase. -/
def monthAbbrevs : List (List Char × Nat) :=
  [("jan".data, 1), ("feb".data, 2), ("mar".data, 3), ("apr".data, 4),
   ("may".data, 5), ("jun".data, 6), ("jul".data, 7), ("aug".data, 8),
   ("sep".data, 9), ("oct".data, 10), ("nov".data, 11), ("dec".data, 12)]

/-- Full month names for `%B` (C locale), lowercase. -/
def monthFulls : List (List Char × Nat) :=
  [("january".data, 1), ("february".data, 2), ("march".data, 3),
   ("april".data, 4), ("may".data, 5), ("june".data, 6), ("july".data, 7),
   ("august".data, 8), ("september".data, 9), ("october".data, 10),
   ("november".data, 11), ("december".data, 12)]

/-- Case-insensitive month-name directive (`%b` / `%B`). -/
def pMonthName (names : List (List Char × Nat)) (l : List Char) :
    List (Nat × List Char) :=
  names.foldr
    (fun nv acc =>
      (match matchLit nv.1 (lcList (l.take nv.1.length)) with
        | some _ => [(nv.2, l.drop nv.1.length)]
        | none => []) ++ acc)
    []

/-- All ways (longest first) of consuming the `\s+` that CPython substitutes
for whitespace in a `strptime` format. -/
def pWs (l : List Char) : List (List Char) :=
  match l with
  | c :: rest =>
    if isSpaceC c then pWs rest ++ [rest] else []
  | [] => []

/-- One `strptime` format token. -/
inductive FmtTok where
  | lit (c : Char)
  | ws
  | day
  | monNum
  | monAbbr
  | monFull
  | year4
  | year2
deriving DecidableEq, Repr

/-- Partially assembled day/month/year values during a format match. -/
structure DMY where
  d : Option Nat := none
  m : Option Nat := none
  y : Option Nat := none
deriving DecidableEq, Repr

/-- Run a format against the input with regex-style ordered backtracking;
returns every complete (full-consumption) match, preference order first. -/
def runFmt : List FmtTok → List Char → DMY → List DMY
  | [], l, acc => if l.isEmpty then [acc] else []
  | tok :: toks, l, acc =>
    match tok with
    | .lit c =>
      match l with
      | c' :: rest => if c' = c then runFmt toks rest acc else []
      | [] => []
    | .ws => (pWs l).flatMap (fun rest => runFmt toks rest acc)
    | .day => (pDay l).flatMap (fun vr => runFmt toks vr.2 { acc with d := some vr.1 })
    | .monNum =>
      (pMonthNum l).flatMap (fun vr => runFmt toks vr.2 { acc with m := some vr.1 })
    | .monAbbr =>
      (pMonthName monthAbbrevs l).flatMap
        (fun vr => runFmt toks vr.2 { acc with m := some vr.1 })
    | .monFull =>
      (pMonthName monthFulls l).flatMap
        (fun vr => runFmt toks vr.2 { acc with m := some vr.1 })
    | .year4 => (pYear4 l).flatMap (fun vr => runFmt toks vr.2 { acc with y := some vr.1 })
    | .year2 => (pYear2 l).flatMap (fun vr => runFmt toks vr.2 { acc with y := some vr.1 })

/-- Gregorian leap-year test used by `datetime.date`. -/
def isLeap (y : Nat) : Bool := y % 4 = 0 && (y % 100 ≠ 0 || y % 400 = 0)

/-- Days in a month, as validated by `datetime.date`. -/
def daysInMonth (y m : Nat) : Nat :=
  if m = 2 then (if isLeap y then 29 else 28)
  else if m = 4 || m = 6 || m = 9 || m = 11 then 30
  else 31

/-- `datetime.date(y, m, d)` construction: validity check. -/
def mkValidDate (dmy : DMY) : Option PDate :=
  match dmy.y, dmy.m, dmy.d with
  | some y, some m, some d =>
    if 1 ≤ y && y ≤ 9999 && 1 ≤ m && m ≤ 12 && 1 ≤ d && d ≤ daysInMonth y m then
      some ⟨y, m, d⟩
    else none
  | _, _, _ => none

/-- `datetime.strptime(s, fmt).date()`: take the regex-preferred complete
match, then validate it as a calendar date; any failure is a `ValueError`,
modelled as `none`. -/
def strptimeDate (toks : List FmtTok) (l : List Char) : Option PDate :=
  match (runFmt toks l {}).head? with
  | some dmy => mkValidDate dmy
  | none => none

/-- The format list tried by `parse_date_flexible`, in source order:
`"%Y-%m-%d", "%m/%d/%Y", "%m-%d-%Y", "%d-%b-%Y", "%d-%B-%Y", "%d %b %Y",
"%d %B %Y", "%Y %B %d", "%b %d %Y", "%B %d %Y", "%m/%d/%y", "%d/%m/%Y"`. -/
def dateFormats : List (List FmtTok) :=
  [[.year4, .lit '-', .monNum, .lit '-', .day],
   [.monNum, .lit '/', .day, .lit '/', .year4],
   [.monNum, .lit '-', .day, .lit '-', .year4],
   [.day, .lit '-', .monAbbr, .lit '-', .year4],
   [.day, .lit '-', .monFull, .lit '-', .year4],
   [.day, .ws, .monAbbr, .ws, .year4],
   [.day, .ws, .monFull, .ws, .year4],
   [.year4, .ws, .monFull, .ws, .day],
   [.monAbbr, .ws, .day, .ws, .year4],
   [.monFull, .ws, .day, .ws, .year4],
   [.monNum, .lit '/', .day, .lit '/', .year2],
   [.day, .lit '/', .monNum, .lit '/', .year4]]

/-- Try each format in order, as the source's `for fmt in formats` loop. -/
def tryFormats : List (List FmtTok) → List Char → Option PDate
  | [], _ => none
  | f :: fs, l =>
    match strptimeDate f l with
    | some d => some d
    | none => tryFormats fs l

/-- The anchored `^(\d{1,2})([A-Za-z]{3})(\d{4})$` rewrite for compact
`DDMMMYYYY` inputs: on match, rebuild as `day-Mon-year` (with
`str.title()` applied to the month letters). -/
def ddmmmyyyyRewrite (l : List Char) : Option (List Char) :=
  let digits := l.takeWhile isDigitC
  let rest := l.dropWhile isDigitC
  if digits.length = 0 || 2 < digits.length then none
  else
    match rest with
    | a :: b :: c :: rest' =>
      if isAlphaC a && isAlphaC b && isAlphaC c &&
          rest'.length = 4 && rest'.all isDigitC then
        some (digits ++ ['-'] ++ [a.toUpper, b.toLower, c.toLower] ++ ['-'] ++ rest')
      else none
    | _ => none

/-- Match `\d{4}-\d{2}-\d{2}` at the current position, returning the
captured ten characters. -/
def ymdAt (l : List Char) : Option (List Char) :=
  match l with
  | a :: b :: c :: d :: '-' :: e :: f :: '-' :: g :: h :: _ =>
    if isDigitC a && isDigitC b && isDigitC c && isDigitC d &&
        isDigitC e && isDigitC f && isDigitC g && isDigitC h then
      some [a, b, c, d, '-', e, f, '-', g, h]
    else none
  | _ => none

/-- Leftmost `re.search` returning the first capture produced by `pat`. -/
def searchCapture (pat : List Char → Option (List Char)) :
    List Char → Option (List Char)
  | [] => pat []
  | c :: cs =>
    match pat (c :: cs) with
    | some cap => some cap
    | none => searchCapture pat cs

/-- One or two digits (`\d{1,2}`), longest-preferred, with the remainder. -/
def pDigits12 (l : List Char) : List (List Char × List Char) :=
  (match l with
    | a :: b :: rest =>
      if isDigitC a && isDigitC b then [([a, b], rest)] else []
    | _ => []) ++
  (match l with
    | a :: rest => if isDigitC a then [([a], rest)] else []
    | _ => [])

/-- Match `\d{1,2}/\d{1,2}/\d{4}` at the current position (regex
backtracking preference), returning the captured substring. -/
def mdyAt (l : List Char) : Option (List Char) :=
  ((pDigits12 l).flatMap (fun ar =>
    match ar.2 with
    | '/' :: rest₁ =>
      (pDigits12 rest₁).flatMap (fun br =>
        match br.2 with
        | '/' :: rest₂ =>
          match pYear4 rest₂ with
          | [] => []
          | _ :: _ =>
            [ar.1 ++ ['/'] ++ br.1 ++ ['/'] ++ rest₂.take 4]
        | _ => [])
    | _ => [])).head?

/-- Model of `validators.parse_date_flexible`. -/
def parse_date_flexible (dateStr : Option String) : Option PDate :=
  match dateStr with
  | none => none
  | some s =>
    if s.data.isEmpty || lcList s.data = "null".data || lcList s.data = "n/a".data then
      none
    else
      let stripped := pyStrip s.data
      let l := (ddmmmyyyyRewrite stripped).getD stripped
      match tryFormats dateFormats l with
      | some d => some d
      | none =>
        match searchCapture ymdAt l with
        | some cap =>
          match strptimeDate [.year4, .lit '-', .monNum, .lit '-', .day] cap with
          | some d => some d
          | none => mdyFallback l
        | none => mdyFallback l
where
  /-- The final `MM/DD/YYYY` substring search. -/
  mdyFallback (l : List Char) : Option PDate :=
    match searchCapture mdyAt l with
    | some cap =>
      strptimeDate [.monNum, .lit '/', .day, .lit '/', .year4] cap
    | none => none

/-! ### Page classifier (`detect_document_types_on_page`)

Each regular expression used by the source is modelled as a decidable
search; patterns compiled with `re.IGNORECASE` are evaluated on the
lowercased text with lowercase character classes. -/

/-- `re.search(r'receipt number.*[A-Z]{3}\d{10}', page_text, re.IGNORECASE)`. -/
def receiptNumberRe (t : String) : Bool :=
  searchAny (fun s =>
    match matchLit "receipt number".data s with
    | some r =>
      dotStarThen (fun r2 =>
        ((matchClassN isLowerAlphaC 3 r2).bind (matchClassN isDigitC 10)).isSome) r
    | none => false) (lcList t.data)

/-- `re.search(r'i[-\s]?94', text_lower)`. -/
def i94Re (t : String) : Bool :=
  searchAny (fun s =>
    match s with
    | 'i' :: rest =>
      "94".data.isPrefixOf rest ||
        (match rest with
          | c :: r2 => (c = '-' || isSpaceC c) && "94".data.isPrefixOf r2
          | [] => false)
    | _ => false) (lcList t.data)

/-- `re.search(r'uscis number.*[A-Z0-9]{9,}', page_text, re.IGNORECASE)`. -/
def uscisNumberRe (t : String) : Bool :=
  searchAny (fun s =>
    match matchLit "uscis number".data s with
    | some r => dotStarThen (fun r2 => (matchClassN isAlnumLowerC 9 r2).isSome) r
    | none => false) (lcList t.data)

/-- `re.search(r'uscis.*[A-Z0-9]{9,}', page_text, re.IGNORECASE)`. -/
def uscisRe (t : String) : Bool :=
  searchAny (fun s =>
    match matchLit "uscis".data s with
    | some r => dotStarThen (fun r2 => (matchClassN isAlnumLowerC 9 r2).isSome) r
    | none => false) (lcList t.data)

/-- `re.search(r'passport.*united states|type.*p\b', page_text, re.IGNORECASE)`. -/
def usPassportRe (t : String) : Bool :=
  searchAny (fun s =>
    match matchLit "passport".data s with
    | some r => dotStarThen (fun r2 => "united states".data.isPrefixOf r2) r
    | none => false) (lcList t.data) ||
  searchAny (fun s =>
    match matchLit "type".data s with
    | some r =>
      dotStarThen (fun r2 =>
        match r2 with
        | 'p' :: rest => match rest with | [] => true | c :: _ => !isWordC c
        | _ => false) r
    | none => false) (lcList t.data)

/-- The `i797_indicators` list. -/
def i797Indicators (t : String) : List Bool :=
  let tl := lcList t.data
  [containsSub tl "notice of action".data,
   containsSub tl "i-797".data,
   containsSub tl "1-797".data,
   containsSub t.data "I-797".data,
   containsSub t.data "1-797".data,
   containsSub tl "uscis".data,
   containsSub tl "department of homeland security".data,
   containsSub tl "u.s. citizenship and immigration services".data,
   receiptNumberRe t,
   containsSub tl "approval notice".data &&
     (containsSub tl "i-140".data || containsSub tl "i-129".data)]

/-- The `i797c_indicators` list. -/
def i797cIndicators (t : String) : List Bool :=
  let tl := lcList t.data
  [containsSub tl "i-797c".data || containsSub tl "1-797c".data,
   containsSub tl "notice of action".data && containsSub tl "receipt".data,
   containsSub tl "receipt notice".data,
   containsSub tl "receipt number".data &&
     (containsSub tl "i-140".data || containsSub tl "i-129".data) &&
     !containsSub tl "approval".data]

/-- The `i129_indicators` list (conjunctive: detection requires `all`). -/
def i129Indicators (t : String) : List Bool :=
  let tl := lcList t.data
  [containsSub tl "i-129".data,
   containsSub tl "petition for a nonimmigrant worker".data,
   !containsSub tl "notice of action".data]

/-- The `perm_indicators` list. -/
def permIndicators (t : String) : List Bool :=
  ["labor certification", "form 9089", "perm"].map (containsLower t)

/-- The `pwd_indicators` list. -/
def pwdIndicators (t : String) : List Bool :=
  ["prevailing wage", "form 9141", "pwd"].map (containsLower t)

/-- The `lca_phrases` list (without the Department-of-Labor upgrade flag). -/
def lcaPhrases (t : String) : List Bool :=
  ["eta-9035", "eta 9035", "labor condition application", "lca", "form 9035"].map
    (containsLower t)

/-- The `lca_dol` upgrade flag. -/
def lcaDol (t : String) : Bool := containsLower t "department of labor"

/-- The `i94_indicators` list. -/
def i94Indicators (t : String) : List Bool :=
  let tl := lcList t.data
  [i94Re t,
   containsSub tl "arrival departure".data || containsSub tl "admission number".data]

/-- The `ead_phrase` flag. -/
def eadPhrase (t : String) : Bool :=
  ["employment authorization", "ead", "work permit", "i-766"].any (containsLower t)

/-- The `ead_number` upgrade flag. -/
def eadNumber (t : String) : Bool := uscisNumberRe t

/-- The `gc_phrase` flag. -/
def gcPhrase (t : String) : Bool :=
  ["permanent resident card", "green card", "i-551"].any (containsLower t)

/-- The `gc_number` upgrade flag. -/
def gcNumber (t : String) : Bool := uscisRe t

/-- The `foreign_passport` flag: `'passport' in text_lower`. -/
def foreignPassportFlag (t : String) : Bool := containsLower t "passport"

/-- The `visa_indicators` list (conjunctive: detection requires `all`). -/
def visaIndicators (t : String) : List Bool :=
  [["visa", "embassy", "consulate"].any (containsLower t),
   ["immigrant", "nonimmigrant"].any (containsLower t)]

/-- Per-type detection triggers, exactly the conditions guarding each
`detections.append` in the source. -/
def trigI797 (t : String) : Bool := (i797Indicators t).any id
def trigI797C (t : String) : Bool := (i797cIndicators t).any id
def trigI129 (t : String) : Bool := (i129Indicators t).all id
def trigPERM (t : String) : Bool := (permIndicators t).any id
def trigPWD (t : String) : Bool := (pwdIndicators t).any id
def trigLCA (t : String) : Bool := (lcaPhrases t).any id
def trigI94 (t : String) : Bool := (i94Indicators t).any id
def trigEAD (t : String) : Bool := eadPhrase t
def trigGreenCard (t : String) : Bool := gcPhrase t
def trigUSPassport (t : String) : Bool := usPassportRe t
def trigForeignPassport (t : String) : Bool := foreignPassportFlag t
def trigVisaStamp (t : String) : Bool := (visaIndicators t).all id

/-- Diagnostics object returned alongside the detections. -/
structure Diagnostics where
  page_length : Nat
  ocr_used : Bool
  indicators_checked : List (String × List Bool)
deriving DecidableEq, Repr

/-- The `indicators` dict, in source insertion order. -/
def indicatorsChecked (t : String) : List (String × List Bool) :=
  [("I797", i797Indicators t),
   ("I797C", i797cIndicators t),
   ("I129", i129Indicators t),
   ("PERM", permIndicators t),
   ("PWD", pwdIndicators t),
   ("LCA", lcaPhrases t ++ [lcaDol t]),
   ("I94", i94Indicators t),
   ("EAD", [eadPhrase t, eadNumber t]),
   ("GREEN_CARD", [gcPhrase t, gcNumber t]),
   ("US_PASSPORT", [usPassportRe t]),
   ("FOREIGN_PASSPORT", [foreignPassportFlag t]),
   ("VISA_STAMP", visaIndicators t)]

/-- The raw detections list, in source append order (before sorting). -/
def rawDetections (t : String) : List (String × ℚ) :=
  (if trigI797 t then
    [("I797", if receiptNumberRe t then (0.95 : ℚ) else 0.9)] else []) ++
  (if trigI797C t then
    [("I797C", if receiptNumberRe t then (0.9 : ℚ) else 0.85)] else []) ++
  (if trigI129 t then [("I129", (0.85 : ℚ))] else []) ++
  (if trigPERM t then [("PERM", (0.9 : ℚ))] else []) ++
  (if trigPWD t then [("PWD", (0.85 : ℚ))] else []) ++
  (if trigLCA t then
    [("LCA", if lcaDol t then (0.95 : ℚ) else 0.9)] else []) ++
  (if trigI94 t then [("I94", (0.8 : ℚ))] else []) ++
  (if trigEAD t then
    [("EAD", if eadNumber t then (0.9 : ℚ) else 0.85)] else []) ++
  (if trigGreenCard t then
    [("GREEN_CARD", if gcNumber t then (0.95 : ℚ) else 0.9)] else []) ++
  (if trigUSPassport t then [("US_PASSPORT", (0.8 : ℚ))]
   else if trigForeignPassport t then [("FOREIGN_PASSPORT", (0.7 : ℚ))] else []) ++
  (if trigVisaStamp t then [("VISA_STAMP", (0.8 : ℚ))] else [])

/-- `sorted(detections, key=lambda x: x[1], reverse=True)`: stable,
descending by confidence. -/
def keepConfDesc (a b : String × ℚ) : Bool := decide (b.2 ≤ a.2)

/-- Model of `detect_document_types_on_page`. -/
def detect_document_types_on_page (page_text : String) (ocr_used : Bool := false) :
    List (String × ℚ) × Diagnostics :=
  (pySortBy keepConfDesc (rawDetections page_text),
   ⟨page_text.length, ocr_used, indicatorsChecked page_text⟩)

/-! ### Continuation detector (`is_continuation_page`) -/

/-- `re.search(r'page \d+', text_lower)`. -/
def pageNumRe (tl : List Char) : Bool :=
  searchAny (fun s =>
    match matchLit "page ".data s with
    | some (c :: _) => isDigitC c
    | _ => false) tl

/-- `re.search(r'page \d+ of \d+', text_lower)`. -/
def pageNumOfRe (tl : List Char) : Bool :=
  searchAny (fun s =>
    match matchLit "page ".data s with
    | some r =>
      let digits := r.takeWhile isDigitC
      !digits.isEmpty &&
        (match matchLit " of ".data (r.drop digits.length) with
          | some (c :: _) => isDigitC c
          | _ => false)
    | none => false) tl

/-- The `continuation_indicators` patterns, applied to the lowercased text. -/
def continuationIndicators : List (List Char → Bool) :=
  [pageNumRe, pageNumOfRe,
   fun tl => containsSub tl "continued".data,
   fun tl => containsSub tl "(continued)".data,
   fun tl => containsSub tl "attachment".data,
   fun tl => containsSub tl "exhibit".data]

/-- The `header_indicators` keyword list. -/
def headerIndicators : List String := ["form", "department", "certificate", "notice"]

/-- Model of `is_continuation_page`. -/
def is_continuation_page (page_text : String) : Bool :=
  let tl := lcList page_text.data
  if continuationIndicators.any (fun f => f tl) then true
  else if (pyStrip page_text.data).length < 200 then true
  else if !(headerIndicators.any (fun k => containsSub tl k.data)) then true
  else false

/-! ### Segment grouper (`group_pages_into_documents`, `create_segment`) -/

/-- One page's analysis record from the first pass of
`analyze_pdf_by_pages`. -/
structure PageAnalysis where
  page_num : Nat
  text : String
  detected_types : List (String × ℚ)
  diagnostics : Diagnostics
  is_continuation : Bool
deriving DecidableEq, Repr

/-- A grouped document segment.  `doc_type` is `Option String` because the
source initialises `current_doc_type = None` and can emit it unchanged. -/
structure DocumentSegment where
  pages : List Nat
  doc_type : Option String
  confidence : ℚ
  text : String
deriving DecidableEq, Repr

/-- Model of `create_segment` (`page_analyses[page_num]['text']`; the
source indexes the analysis list by page number, which in the pipeline
equals the list position — out-of-range indexing, an `IndexError` in
Python, is modelled as the empty string). -/
def create_segment (page_numbers : List Nat) (doc_type : Option String)
    (confidence : ℚ) (page_analyses : List PageAnalysis) : DocumentSegment :=
  let combined :=
    page_numbers.foldl
      (fun acc n => acc ++ (((page_analyses.get? n).map (·.text)).getD "").data ++ "\n\n".data)
      []
  ⟨page_numbers, doc_type, confidence, ⟨pyStrip combined⟩⟩

/-- The grouping loop, carrying the current accumulating segment
(`current_segment_pages`, `current_doc_type`, `current_confidence`). -/
def groupGo (all : List PageAnalysis) :
    List PageAnalysis → List Nat → Option String → ℚ → List DocumentSegment
  | [], cur, t, c => if cur.isEmpty then [] else [create_segment cur t c all]
  | pa :: rest, cur, t, c =>
    if pa.detected_types.isEmpty && !pa.is_continuation then
      (if cur.isEmpty then [] else [create_segment cur t c all]) ++
        create_segment [pa.page_num] (some "UNKNOWN") 0.3 all ::
          groupGo all rest [] t c
    else if !pa.detected_types.isEmpty && !pa.is_continuation then
      (if cur.isEmpty then [] else [create_segment cur t c all]) ++
        groupGo all rest [pa.page_num] (some pa.detected_types.headI.1)
          pa.detected_types.headI.2
    else
      groupGo all rest (cur ++ [pa.page_num]) t c

/-- Model of `group_pages_into_documents`. -/
def group_pages_into_documents (page_analyses : List PageAnalysis) :
    List DocumentSegment :=
  groupGo page_analyses page_analyses [] none 0

/-! ### Page-level pipeline (`get_page_text`, `analyze_pdf_by_pages`)

A PDF page is abstracted by the two texts its extractors can produce. -/

/-- A PDF page, abstracted by what PyMuPDF and EasyOCR would return. -/
structure Page where
  pymupdfText : String
  ocrText : String
deriving DecidableEq, Repr

/-- The OCR-fallback condition of `get_page_text`:
`len(text.strip()) < min_length`. -/
def pageUsedOCR (p : Page) (min_length : Nat := 20) : Bool :=
  (pyStrip p.pymupdfText.data).length < min_length

/-- Model of `get_page_text`. -/
def get_page_text (p : Page) (min_length : Nat := 20) : String :=
  if pageUsedOCR p min_length then p.ocrText else p.pymupdfText

/-- One entry of the `page_diagnostics` list returned by
`analyze_pdf_by_pages`. -/
structure PageDiagEntry where
  page_num : Nat
  detected_types : List (String × ℚ)
  diagnostics : Diagnostics
deriving DecidableEq, Repr

/-- Model of `analyze_pdf_by_pages`.  Note that the source calls
`detect_document_types_on_page(page_text)` without an `ocr_used`
argument, so the default `False` is always recorded. -/
def analyze_pdf_by_pages (pages : List Page) :
    List DocumentSegment × List PageDiagEntry :=
  let page_analyses := pages.enum.map (fun ip =>
    let page_text := get_page_text ip.2
    let dd := detect_document_types_on_page page_text
    { page_num := ip.1, text := page_text, detected_types := dd.1,
      diagnostics := dd.2,
      is_continuation := is_continuation_page page_text : PageAnalysis })
  (group_pages_into_documents page_analyses,
   page_analyses.map (fun a => ⟨a.page_num, a.detected_types, a.diagnostics⟩))

/-! ### Identity resolver and consolidator (`consolidate_person_data`)

Extracted-field dictionaries are modelled as association lists of string
key/value pairs; a Python falsy value (absence, `None`, or the empty
string) is collapsed to `none` by `tget`, matching how the source only
ever distinguishes values by truthiness. -/

/-- A segment's processing result, restricted to the fields
`consolidate_person_data` reads. -/
structure SegmentResult where
  document_type : String
  pages : List Nat
  extracted_data : List (String × String)
deriving DecidableEq, Repr

/-- `dict.get(k)`: first binding of `k`, if any. -/
def fget (d : List (String × String)) (k : String) : Option String :=
  match d.find? (fun kv => kv.1 == k) with
  | some kv => some kv.2
  | none => none

/-- `dict.get(k)` collapsed by Python truthiness (`None`/`''` ↦ `none`). -/
def tget (d : List (String × String)) (k : String) : Option String :=
  match fget d k with
  | some s => if s.isEmpty then none else some s
  | none => none

/-- `str.strip()` on a `String`. -/
def pyStripS (s : String) : String := ⟨pyStrip s.data⟩

/-- The `I94` branch of person-name extraction. -/
def i94Name (d : List (String × String)) : Option String :=
  let first := pyStripS ((tget d "first_name" <|> tget d "first_given_name").getD
    ((fget d "given_name").getD ""))
  let last := pyStripS ((tget d "last_name" <|> tget d "lastsurname").getD
    ((fget d "surname").getD ""))
  if first ≠ "" ∧ last ≠ "" then some (first ++ " " ++ last)
  else if first ≠ "" then some first
  else if last ≠ "" then some last
  else none

/-- The `I129` branch of person-name extraction. -/
def i129Name (d : List (String × String)) : Option String :=
  let given := (tget d "given_name").getD ((fget d "given_name_first_name").getD "")
  let family := (tget d "family_name").getD ((fget d "family_name_last_name").getD "")
  if given ≠ "" ∧ family ≠ "" then some (given ++ " " ++ family) else none

/-- The `VISA_STAMP` branch of person-name extraction. -/
def visaName (d : List (String × String)) : Option String :=
  let given := (fget d "given_name").getD ""
  let surname := (fget d "surname").getD ""
  if given ≠ "" ∧ surname ≠ "" then some (given ++ " " ++ surname) else none

/-- The type-specific person-name extraction rules. -/
def typeSpecificName (seg : SegmentResult) : Option String :=
  let d := seg.extracted_data
  if seg.document_type = "I94" then i94Name d
  else if seg.document_type = "I797" ∨ seg.document_type = "I797C" then
    tget d "beneficiary"
  else if seg.document_type = "I129" then i129Name d
  else if seg.document_type = "EAD" ∨ seg.document_type = "GREEN_CARD" then
    tget d "full_name"
  else if seg.document_type = "US_PASSPORT" ∨ seg.document_type = "FOREIGN_PASSPORT" then
    tget d "holder_name"
  else if seg.document_type = "VISA_STAMP" then visaName d
  else none

/-- The generic fallback person-name chain. -/
def fallbackName (d : List (String × String)) : Option String :=
  tget d "beneficiary" <|> tget d "full_name" <|> tget d "holder_name" <|>
  (let fl := pyStripS (((fget d "first_name").getD "") ++ " " ++
    ((fget d "last_name").getD ""))
   if fl = "" then none else some fl) <|>
  (let gs := pyStripS (((fget d "given_name").getD "") ++ " " ++
    ((fget d "surname").getD ""))
   if gs = "" then none else some gs)

/-- The resolved person name for a segment (`person_name` in the source;
`none` models Python-falsy). -/
def resolvePersonName (seg : SegmentResult) : Option String :=
  typeSpecificName seg <|> fallbackName seg.extracted_data

/-- The resolved date of birth (`dob` in the source). -/
def resolveDob (d : List (String × String)) : Option String :=
  tget d "date_of_birth" <|> tget d "birth_date" <|> tget d "date_of_birth_mmddyyyy"

/-- `person_key`: `name + "_" + dob` when a DOB resolved, else `name`. -/
def personKey (name : String) (dob : Option String) : String :=
  match dob with
  | some d => name ++ "_" ++ d
  | none => name

/-- The `doc_date_raw` fallback chain. -/
def resolveDocDate (d : List (String × String)) : Option String :=
  tget d "notice_date" <|> tget d "issue_date" <|> tget d "received_date" <|>
  tget d "arrival_date" <|> tget d "arrivalissued_date" <|> tget d "expiration_date"

/-- One timeline entry (the dict appended inside
`if parsed_doc_date:`; `parsed_date` is always a successfully parsed
date there). -/
structure TimelineEntry where
  date : String
  parsed_date : PDate
  document : String
  event : String
deriving DecidableEq, Repr

/-- One entry of a person record's `documents` list. -/
structure DocEntry where
  type : String
  pages : List Nat
  data : List (String × String)
deriving DecidableEq, Repr

/-- A person record. -/
structure PersonRecord where
  name : String
  date_of_birth : Option String
  documents : List DocEntry
  timeline : List TimelineEntry
  inconsistencies : List String
deriving DecidableEq, Repr

/-- `person_records[key]` lookup (Python dict keyed by strings). -/
def getRecord : List (String × PersonRecord) → String → Option PersonRecord
  | [], _ => none
  | kv :: rest, k => if kv.1 = k then some kv.2 else getRecord rest k

/-- `person_records[key] = r`: in-place update of an existing key, or
insertion at the end for a new key (Python dict insertion order). -/
def setRecord : List (String × PersonRecord) → String → PersonRecord →
    List (String × PersonRecord)
  | [], k, r => [(k, r)]
  | kv :: rest, k, r => if kv.1 = k then (k, r) :: rest else kv :: setRecord rest k r

/-- Name read from one document entry by the consistency check. -/
def docName (d : List (String × String)) : Option String :=
  tget d "beneficiary" <|> tget d "full_name" <|> tget d "holder_name"

/-- DOB read from one document entry by the consistency check. -/
def docDob (d : List (String × String)) : Option String :=
  tget d "date_of_birth" <|> tget d "birth_date"

/-- Country read from one document entry by the consistency check. -/
def docCountry (d : List (String × String)) : Option String :=
  tget d "country_of_citizenship" <|> tget d "country_of_birth" <|>
  tget d "nationality"

/-- Model of `check_person_data_consistency`.  A Python `set` of strings
is modelled as order-preserving deduplication: its cardinality (all the
source's decisions depend on) is exact; only the unordered iteration
order inside the joined message string is made deterministic. -/
def check_person_data_consistency (r : PersonRecord) : PersonRecord :=
  if r.documents.length < 2 then r
  else
    let names := (r.documents.filterMap (fun doc => docName doc.data)).dedup
    let dobs := (r.documents.filterMap (fun doc => docDob doc.data)).dedup
    let countries := (r.documents.filterMap (fun doc => docCountry doc.data)).dedup
    let inc1 :=
      if 1 < names.length then ["Name variations: " ++ String.intercalate ", " names]
      else []
    let inc2 :=
      if 1 < dobs.length then ["DOB variations: " ++ String.intercalate ", " dobs]
      else []
    let inc3 :=
      if 1 < countries.length then
        ["Country variations: " ++ String.intercalate ", " countries]
      else []
    { r with inconsistencies := inc1 ++ inc2 ++ inc3 }

/-- The document entry appended for a segment. -/
def docEntryOf (seg : SegmentResult) : DocEntry :=
  ⟨seg.document_type, seg.pages, seg.extracted_data⟩

/-- Ascending timeline order: `key=lambda x: x.get('parsed_date') or date.min`. -/
def keepDateAsc (a b : TimelineEntry) : Bool := PDate.le a.parsed_date b.parsed_date

/-- The timeline entry appended for a segment, when its raw document date
parses (`if parsed_doc_date:`); empty otherwise. -/
def timelineAddition (seg : SegmentResult) : List TimelineEntry :=
  let rawOpt := resolveDocDate seg.extracted_data
  match parse_date_flexible rawOpt with
  | some pd =>
    [⟨rawOpt.getD "", pd, seg.document_type, seg.document_type ++ " processed"⟩]
  | none => []

/-- The record mutations performed on the (fetched or fresh) person
record: append the segment's document entry, then — only when the
segment's document date parses — append a timeline entry and re-sort the
timeline ascending by parsed date (Python's stable `list.sort`). -/
def updateRecord (r0 : PersonRecord) (seg : SegmentResult) : PersonRecord :=
  let r1 := { r0 with documents := r0.documents ++ [docEntryOf seg] }
  match timelineAddition seg with
  | [] => r1
  | adds => { r1 with timeline := pySortBy keepDateAsc (r1.timeline ++ adds) }

/-- Model of `consolidate_person_data` (functional form: returns the
updated `person_records`). -/
def consolidate_person_data (seg : SegmentResult)
    (person_records : List (String × PersonRecord)) :
    List (String × PersonRecord) :=
  match resolvePersonName seg with
  | none => person_records
  | some name =>
    let dob := resolveDob seg.extracted_data
    let key := personKey name dob
    let r0 := (getRecord person_records key).getD ⟨name, dob, [], [], []⟩
    setRecord person_records key
      (check_person_data_consistency (updateRecord r0 seg))

/-! ### Statement-side definitions used by the claim theorems -/

/-- The catalog's known document type names, in catalog order. -/
def catalogNames : List String :=
  ["I797", "I797C", "I129", "PERM", "PWD", "LCA", "I94", "EAD", "GREEN_CARD",
   "US_PASSPORT", "FOREIGN_PASSPORT", "VISA_STAMP"]

/-- The doc-type shape asserted by the segment-typing claim: a catalog
name or the literal string `UNKNOWN`. -/
def knownOrUnknownType (o : Option String) : Bool :=
  match o with
  | some nm => catalogNames.contains nm || nm = "UNKNOWN"
  | none => false

/-- The per-page analysis record exactly as the first pass of
`analyze_pdf_by_pages` builds it from a page's text. -/
def analysisOfText (i : Nat) (t : String) : PageAnalysis :=
  let dd := detect_document_types_on_page t
  ⟨i, t, dd.1, dd.2, is_continuation_page t⟩

/-- No catalog entry's detection condition fires on the text: the
conjunction of the negations of all twelve triggers. -/
def noTypeTriggers (t : String) : Bool :=
  !(trigI797 t || trigI797C t || trigI129 t || trigPERM t || trigPWD t ||
    trigLCA t || trigI94 t || trigEAD t || trigGreenCard t ||
    trigUSPassport t || trigForeignPassport t || trigVisaStamp t)

/-- The person key a segment resolves to, if any. -/
def resolvedKey (seg : SegmentResult) : Option String :=
  (resolvePersonName seg).map (fun n => personKey n (resolveDob seg.extracted_data))

/-- The timeline invariant asserted by the spec: ascending by parsed
date, and every entry's raw date string parses to its stored parsed
date (so nothing unparseable is ever present). -/
def TimelineOK (tl : List TimelineEntry) : Prop :=
  tl.Pairwise (fun a b => PDate.le a.parsed_date b.parsed_date = true) ∧
  ∀ e ∈ tl, parse_date_flexible (some e.date) = some e.parsed_date

/-- All person records satisfy the timeline invariant. -/
def RecordsOK (recs : List (String × PersonRecord)) : Prop :=
  ∀ kv ∈ recs, TimelineOK kv.2.timeline

/-! ## Theorems

Everything below is proof; the embedding of the source is complete above
this line. -/

theorem PDate.le_total (a b : PDate) : a.le b = true ∨ b.le a = true := by
  simp only [PDate.le, Bool.or_eq_true, Bool.and_eq_true, decide_eq_true_eq]
  omega

theorem PDate.le_trans {a b c : PDate} (h₁ : a.le b = true) (h₂ : b.le c = true) :
    a.le c = true := by
  simp only [PDate.le, Bool.or_eq_true, Bool.and_eq_true, decide_eq_true_eq] at *
  omega

theorem PDate.le_refl (a : PDate) : a.le a = true := by
  simp [PDate.le]

theorem mem_insertByKeep {α : Type} (keep : α → α → Bool) (x a : α) :
    ∀ l : List α, a ∈ insertByKeep keep x l ↔ a = x ∨ a ∈ l := by
  intro l
  induction l with
  | nil => simp [insertByKeep]
  | cons y ys ih =>
    rw [insertByKeep]
    by_cases h : keep y x = true
    · rw [if_pos h]
      simp only [List.mem_cons, ih]
      tauto
    · rw [if_neg h]
      simp only [List.mem_cons]

theorem mem_pySortBy_aux {α : Type} (keep : α → α → Bool) (a : α) :
    ∀ (l acc : List α),
      (a ∈ l.foldl (fun acc x => insertByKeep keep x acc) acc ↔ a ∈ acc ∨ a ∈ l) := by
  intro l
  induction l with
  | nil => simp
  | cons x xs ih =>
    intro acc
    rw [List.foldl_cons, ih, mem_insertByKeep]
    simp
    tauto

theorem mem_pySortBy {α : Type} (keep : α → α → Bool) (a : α) (l : List α) :
    a ∈ pySortBy keep l ↔ a ∈ l := by
  rw [pySortBy, mem_pySortBy_aux]
  simp

theorem pairwise_insertByKeep {α : Type} (keep : α → α → Bool)
    (htot : ∀ a b, keep a b = true ∨ keep b a = true)
    (htrans : ∀ a b c, keep a b = true → keep b c = true → keep a c = true)
    (x : α) : ∀ l : List α, l.Pairwise (fun a b => keep a b = true) →
      (insertByKeep keep x l).Pairwise (fun a b => keep a b = true) := by
  intro l
  induction l with
  | nil => simp [insertByKeep]
  | cons y ys ih =>
    intro hp
    rw [List.pairwise_cons] at hp
    by_cases h : keep y x = true
    · rw [insertByKeep, if_pos h, List.pairwise_cons]
      refine ⟨?_, ih hp.2⟩
      intro b hb
      rcases (mem_insertByKeep keep x b ys).mp hb with hbx | hby
      · exact hbx ▸ h
      · exact hp.1 b hby
    · rw [insertByKeep, if_neg h, List.pairwise_cons]
      have hxy : keep x y = true := (htot x y).resolve_right (fun hc => h hc)
      refine ⟨?_, List.pairwise_cons.mpr hp⟩
      intro b hb
      rcases List.mem_cons.mp hb with hb | hb
      · exact hb ▸ hxy
      · exact htrans x y b hxy (hp.1 b hb)

theorem pairwise_pySortBy_aux {α : Type} (keep : α → α → Bool)
    (htot : ∀ a b, keep a b = true ∨ keep b a = true)
    (htrans : ∀ a b c, keep a b = true → keep b c = true → keep a c = true) :
    ∀ (l acc : List α), acc.Pairwise (fun a b => keep a b = true) →
      (l.foldl (fun acc x => insertByKeep keep x acc) acc).Pairwise
        (fun a b => keep a b = true) := by
  intro l
  induction l with
  | nil => intro acc h; simpa using h
  | cons x xs ih =>
    intro acc h
    rw [List.foldl_cons]
    exact ih _ (pairwise_insertByKeep keep htot htrans x acc h)

theorem pairwise_pySortBy {α : Type} (keep : α → α → Bool)
    (htot : ∀ a b, keep a b = true ∨ keep b a = true)
    (htrans : ∀ a b c, keep a b = true → keep b c = true → keep a c = true)
    (l : List α) :
    (pySortBy keep l).Pairwise (fun a b => keep a b = true) :=
  pairwise_pySortBy_aux keep htot htrans l [] (by simp)

/-- Stability of `insertByKeep` on a sorted list: elements selected by a
predicate `p` compatible with the order keep their relative positions, and
the inserted element lands after all of them. -/
theorem filter_insertByKeep {α : Type} (keep : α → α → Bool) (p : α → Bool)
    (htrans : ∀ a b c, keep a b = true → keep b c = true → keep a c = true)
    (hcompat : ∀ a b, p a = true → p b = true → keep a b = true) (x : α) :
    ∀ l : List α, l.Pairwise (fun a b => keep a b = true) →
      (insertByKeep keep x l).filter p =
        l.filter p ++ (if p x then [x] else []) := by
  intro l
  induction l with
  | nil => by_cases h : p x <;> simp [insertByKeep, List.filter, h]
  | cons y ys ih =>
    intro hp
    rw [List.pairwise_cons] at hp
    by_cases h : keep y x = true
    · rw [insertByKeep, if_pos h]
      by_cases hy : p y = true
      · rw [List.filter_cons_of_pos hy, List.filter_cons_of_pos hy, ih hp.2,
          List.cons_append]
      · rw [List.filter_cons_of_neg (by simp [hy]),
          List.filter_cons_of_neg (by simp [hy]), ih hp.2]
    · rw [insertByKeep, if_neg h]
      by_cases hx : p x = true
      · have hnone : ∀ b ∈ y :: ys, p b = false := by
          intro b hb
          rcases List.mem_cons.mp hb with hby | hb
          · subst hby
            by_contra hc
            exact h (hcompat b x (by simpa using hc) hx)
          · by_contra hc
            have hbx : keep b x = true := hcompat b x (by simpa using hc) hx
            exact h (htrans y b x (hp.1 b hb) hbx)
        rw [List.filter_cons_of_pos hx, if_pos hx,
          List.filter_eq_nil_iff.mpr (by intro b hb; simp [hnone b hb])]
        simp
      · rw [List.filter_cons_of_neg (by simp [hx]), if_neg hx]
        simp

theorem filter_pySortBy_aux {α : Type} (keep : α → α → Bool) (p : α → Bool)
    (htot : ∀ a b, keep a b = true ∨ keep b a = true)
    (htrans : ∀ a b c, keep a b = true → keep b c = true → keep a c = true)
    (hcompat : ∀ a b, p a = true → p b = true → keep a b = true) :
    ∀ (l acc : List α), acc.Pairwise (fun a b => keep a b = true) →
      (l.foldl (fun acc x => insertByKeep keep x acc) acc).filter p =
        acc.filter p ++ l.filter p := by
  intro l
  induction l with
  | nil => intro acc _; simp
  | cons x xs ih =>
    intro acc h
    rw [List.foldl_cons, ih _ (pairwise_insertByKeep keep htot htrans x acc h),
      filter_insertByKeep keep p htrans hcompat x acc h]
    by_cases hx : p x = true
    · rw [List.filter_cons_of_pos hx, if_pos hx]
      simp
    · rw [List.filter_cons_of_neg (by simp [hx]), if_neg hx]
      simp

/-- Stability of the modelled Python sort: for any predicate selecting one
equivalence class of the sort key, filtering commutes with sorting. -/
theorem filter_pySortBy {α : Type} (keep : α → α → Bool) (p : α → Bool)
    (htot : ∀ a b, keep a b = true ∨ keep b a = true)
    (htrans : ∀ a b c, keep a b = true → keep b c = true → keep a c = true)
    (hcompat : ∀ a b, p a = true → p b = true → keep a b = true)
    (l : List α) : (pySortBy keep l).filter p = l.filter p := by
  rw [pySortBy, filter_pySortBy_aux keep p htot htrans hcompat l [] (by simp)]
  simp

/-! ### The segment grouper partitions the pages (C1) -/

theorem create_segment_pages (p : List Nat) (t : Option String) (c : ℚ)
    (all : List PageAnalysis) : (create_segment p t c all).pages = p := rfl

theorem create_segment_doc_type (p : List Nat) (t : Option String) (c : ℚ)
    (all : List PageAnalysis) : (create_segment p t c all).doc_type = t := rfl

theorem create_segment_confidence (p : List Nat) (t : Option String) (c : ℚ)
    (all : List PageAnalysis) : (create_segment p t c all).confidence = c := rfl

theorem groupGo_flatMap_pages (all : List PageAnalysis) :
    ∀ (l : List PageAnalysis) (cur : List Nat) (t : Option String) (c : ℚ),
      (groupGo all l cur t c).flatMap (·.pages) = cur ++ l.map (·.page_num) := by
  intro l
  induction l with
  | nil =>
    intro cur t c
    by_cases h : cur.isEmpty
    · rw [groupGo, if_pos h, List.isEmpty_iff.mp h]
      rfl
    · rw [groupGo, if_neg h]
      simp [create_segment_pages]
  | cons pa rest ih =>
    intro cur t c
    rw [groupGo]
    by_cases h1 : (pa.detected_types.isEmpty && !pa.is_continuation) = true
    · rw [if_pos h1]
      by_cases h : cur.isEmpty
      · rw [List.isEmpty_iff.mp h]
        simp [List.flatMap_cons, create_segment_pages, ih]
      · rw [if_neg h]
        simp [List.flatMap_append, List.flatMap_cons, create_segment_pages, ih]
    · rw [if_neg h1]
      by_cases h2 : (!pa.detected_types.isEmpty && !pa.is_continuation) = true
      · rw [if_pos h2]
        by_cases h : cur.isEmpty
        · rw [List.isEmpty_iff.mp h]
          simp [create_segment_pages, ih]
        · rw [if_neg h]
          simp [List.flatMap_append, List.flatMap_cons, create_segment_pages, ih]
      · rw [if_neg h2, ih]
        simp

/-- C1: for every ordered sequence of page analyses whose page numbers
are their positions (as `analyze_pdf_by_pages` always produces), the
segments returned by `group_pages_into_documents` partition the input
pages: concatenating the segments' `pages` lists, in emission order,
yields exactly `0, 1, …, n-1` — every page exactly once, in original
order, with no gaps and no overlaps. -/
theorem segment_grouper_partitions_pages (analyses : List PageAnalysis)
    (h : analyses.map (·.page_num) = List.range analyses.length) :
    (group_pages_into_documents analyses).flatMap (·.pages) =
      List.range analyses.length := by
  rw [group_pages_into_documents, groupGo_flatMap_pages, List.nil_append, h]

/-- Witness for C1 at a concrete three-page input. -/
theorem segment_grouper_partitions_pages_witness :
    ([analysisOfText 0 "", analysisOfText 1 "exhibit a", analysisOfText 2 "b"].map
        (·.page_num) = List.range 3) ∧
    (group_pages_into_documents
        [analysisOfText 0 "", analysisOfText 1 "exhibit a", analysisOfText 2 "b"]).flatMap
        (·.pages) = List.range 3 :=
  ⟨by decide, segment_grouper_partitions_pages _ (by decide)⟩

/-! ### Continuation detector decision order (C4) -/

/-- C4: `is_continuation_page` decides with this fixed order, first match
winning: `True` if the lowercased text matches any continuation
phrase/pattern (`page \d+`, `page \d+ of \d+`, `continued`,
`(continued)`, `attachment`, `exhibit`); otherwise `True` if the trimmed
text length is strictly below 200 characters; otherwise `True` if the
text contains none of the header keywords `form`, `department`,
`certificate`, `notice`; otherwise `False`. -/
theorem is_continuation_decision_order (t : String) :
    is_continuation_page t =
      (if pageNumRe (lcList t.data) = true ∨ pageNumOfRe (lcList t.data) = true ∨
          containsSub (lcList t.data) "continued".data = true ∨
          containsSub (lcList t.data) "(continued)".data = true ∨
          containsSub (lcList t.data) "attachment".data = true ∨
          containsSub (lcList t.data) "exhibit".data = true then true
       else if (pyStrip t.data).length < 200 then true
       else if ¬(containsSub (lcList t.data) "form".data = true ∨
          containsSub (lcList t.data) "department".data = true ∨
          containsSub (lcList t.data) "certificate".data = true ∨
          containsSub (lcList t.data) "notice".data = true) then true
       else false) := by
  simp only [is_continuation_page, continuationIndicators, headerIndicators,
    List.any_cons, List.any_nil, Bool.or_eq_true, Bool.or_false,
    Bool.not_eq_true']
  split_ifs with hA hB hC hD hE <;> simp_all

/-! ### Classifier on indicator-free text (C6) -/

/-- C6: on any page text where none of the twelve catalog detection
conditions fires, `detect_document_types_on_page` (a total function —
no exception is possible in the model) returns an empty detection list
and a diagnostics object whose `page_length` is the length of the input
text. -/
theorem classify_no_indicators_empty (t : String) (b : Bool)
    (h : noTypeTriggers t = true) :
    (detect_document_types_on_page t b).1 = [] ∧
    (detect_document_types_on_page t b).2.page_length = t.length := by
  refine ⟨?_, rfl⟩
  simp only [noTypeTriggers, Bool.not_eq_true', Bool.or_eq_false_iff] at h
  obtain ⟨⟨⟨⟨⟨⟨⟨⟨⟨⟨⟨h1, h2⟩, h3⟩, h4⟩, h5⟩, h6⟩, h7⟩, h8⟩, h9⟩, h10⟩, h11⟩, h12⟩ := h
  simp [detect_document_types_on_page, rawDetections,
    h1, h2, h3, h4, h5, h6, h7, h8, h9, h10, h11, h12, pySortBy]

/-- Witness for C6 on a concrete indicator-free text. -/
theorem classify_no_indicators_empty_witness :
    noTypeTriggers "no meaningful content here" = true ∧
    (detect_document_types_on_page "no meaningful content here" false).1 = [] ∧
    (detect_document_types_on_page "no meaningful content here" false).2.page_length =
      ("no meaningful content here" : String).length :=
  ⟨by decide, classify_no_indicators_empty _ false (by decide)⟩

/-! ### Date parser round trip (C8) -/

/-- C8: `parse_date_flexible` succeeds on `"2024-01-01"` and
`"19DEC1994"`, yielding 2024-01-01 and 1994-12-19 respectively (so the
former orders strictly after the latter), and returns `none` — rather
than failing — on `"invalid-date"`. -/
theorem parse_date_flexible_round_trip :
    parse_date_flexible (some "2024-01-01") = some ⟨2024, 1, 1⟩ ∧
    parse_date_flexible (some "19DEC1994") = some ⟨1994, 12, 19⟩ ∧
    PDate.lt ⟨1994, 12, 19⟩ ⟨2024, 1, 1⟩ = true ∧
    parse_date_flexible (some "invalid-date") = none := by
  refine ⟨by decide, by decide, by decide, by decide⟩

/-! ### Unresolvable names are silently dropped (C9) -/

/-- C9: when no person name resolves from a segment result (neither the
type-specific rules nor the generic fallback), `consolidate_person_data`
returns the person records unchanged — no record is created or modified
and no error is reported. -/
theorem consolidate_no_name_no_change (seg : SegmentResult)
    (recs : List (String × PersonRecord)) (h : resolvePersonName seg = none) :
    consolidate_person_data seg recs = recs := by
  unfold consolidate_person_data
  rw [h]

/-- Witness for C9: a segment with no name-bearing fields. -/
theorem consolidate_no_name_no_change_witness :
    resolvePersonName ⟨"I797", [0], [("notice_date", "2024-01-01")]⟩ = none ∧
    consolidate_person_data ⟨"I797", [0], [("notice_date", "2024-01-01")]⟩ [] = [] :=
  ⟨by decide, consolidate_no_name_no_change _ [] (by decide)⟩

/-! ### US/foreign passport mutual exclusion (C10) -/

theorem detect_fst (t : String) (b : Bool) :
    (detect_document_types_on_page t b).1 = pySortBy keepConfDesc (rawDetections t) :=
  rfl

theorem foreign_passport_mem_raw (t : String) (c : ℚ) :
    (("FOREIGN_PASSPORT", c) ∈ rawDetections t) ↔
      (trigUSPassport t = false ∧ trigForeignPassport t = true ∧ c = 0.7) := by
  cases hus : trigUSPassport t <;> cases hf : trigForeignPassport t <;>
    simp +decide [rawDetections, hus, hf, List.mem_append, List.mem_ite_nil_right,
      Prod.mk.injEq]

theorem us_passport_mem_raw (t : String) (c : ℚ) :
    (("US_PASSPORT", c) ∈ rawDetections t) ↔
      (trigUSPassport t = true ∧ c = 0.8) := by
  cases hus : trigUSPassport t <;> cases hf : trigForeignPassport t <;>
    simp +decide [rawDetections, hus, hf, List.mem_append, List.mem_ite_nil_right,
      Prod.mk.injEq]

/-- C10: the detection list never contains both passport types; when the
US-passport regex matches (even if the word "passport" also makes the
foreign indicator true), only `US_PASSPORT` at confidence 0.8 is
detected; `FOREIGN_PASSPORT` appears — always at confidence 0.7 — exactly
when the US-passport regex fails and `passport` occurs in the lowercased
text. -/
theorem passport_detection_mutual_exclusion (t : String) (b : Bool) :
    (¬ ((∃ c, ("US_PASSPORT", c) ∈ (detect_document_types_on_page t b).1) ∧
        (∃ c, ("FOREIGN_PASSPORT", c) ∈ (detect_document_types_on_page t b).1))) ∧
    (usPassportRe t = true →
      ("US_PASSPORT", (0.8 : ℚ)) ∈ (detect_document_types_on_page t b).1 ∧
      ∀ c, ("FOREIGN_PASSPORT", c) ∉ (detect_document_types_on_page t b).1) ∧
    ((∃ c, ("FOREIGN_PASSPORT", c) ∈ (detect_document_types_on_page t b).1) ↔
      usPassportRe t = false ∧ foreignPassportFlag t = true) ∧
    (∀ c, ("FOREIGN_PASSPORT", c) ∈ (detect_document_types_on_page t b).1 →
      c = 0.7) := by
  simp only [detect_fst, mem_pySortBy, foreign_passport_mem_raw, us_passport_mem_raw]
  have hUS : trigUSPassport t = usPassportRe t := rfl
  have hF : trigForeignPassport t = foreignPassportFlag t := rfl
  refine ⟨?_, ?_, ?_, ?_⟩
  · rintro ⟨⟨c₁, hc₁, _⟩, ⟨c₂, hc₂, _⟩⟩
    rw [hc₁] at hc₂
    simp at hc₂
  · intro h
    rw [hUS] at *
    exact ⟨⟨h, by trivial⟩, fun c hc => by rw [h] at hc; simp at hc⟩
  · rw [hUS, hF]
    constructor
    · rintro ⟨c, h1, h2, _⟩
      exact ⟨h1, h2⟩
    · rintro ⟨h1, h2⟩
      exact ⟨0.7, h1, h2, rfl⟩
  · rintro c ⟨_, _, hc⟩
    exact hc

/-- Witness for C10: a text matching both the US-passport regex and the
plain `passport` indicator yields `US_PASSPORT` and no
`FOREIGN_PASSPORT`. -/
theorem passport_detection_mutual_exclusion_witness :
    usPassportRe "passport of the united states" = true ∧
    ("US_PASSPORT", (0.8 : ℚ)) ∈
      (detect_document_types_on_page "passport of the united states" false).1 ∧
    ∀ c, ("FOREIGN_PASSPORT", c) ∉
      (detect_document_types_on_page "passport of the united states" false).1 :=
  ⟨by decide,
   ((passport_detection_mutual_exclusion "passport of the united states" false).2.1
      (by decide)).1,
   ((passport_detection_mutual_exclusion "passport of the united states" false).2.1
      (by decide)).2⟩

/-! ### Segment doc-types and confidences (C5) -/

theorem rawDetections_names_bounds (t : String) :
    ∀ d ∈ rawDetections t, d.1 ∈ catalogNames ∧ 0 ≤ d.2 ∧ d.2 ≤ 1 := by
  have hone : ∀ (cond : Bool) (nm : String) (cf : ℚ), nm ∈ catalogNames → 0 ≤ cf → cf ≤ 1 →
      ∀ d ∈ (if cond = true then [(nm, cf)] else []),
        d.1 ∈ catalogNames ∧ 0 ≤ d.2 ∧ d.2 ≤ 1 := by
    intro cond nm cf h1 h2 h3 d hd
    split at hd
    · rw [List.mem_singleton] at hd
      subst hd
      exact ⟨h1, h2, h3⟩
    · simp at hd
  have hpass : ∀ d ∈ (if trigUSPassport t = true then [("US_PASSPORT", (0.8 : ℚ))]
      else if trigForeignPassport t = true then [("FOREIGN_PASSPORT", (0.7 : ℚ))] else []),
      d.1 ∈ catalogNames ∧ 0 ≤ d.2 ∧ d.2 ≤ 1 := by
    intro d hd
    split at hd
    · rw [List.mem_singleton] at hd
      subst hd
      exact ⟨by decide, by norm_num, by norm_num⟩
    · split at hd
      · rw [List.mem_singleton] at hd
        subst hd
        exact ⟨by decide, by norm_num, by norm_num⟩
      · simp at hd
  rw [rawDetections]
  simp only [List.forall_mem_append]
  exact ⟨⟨⟨⟨⟨⟨⟨⟨⟨⟨hone _ _ _ (by decide) (by split_ifs <;> norm_num) (by split_ifs <;> norm_num),
    hone _ _ _ (by decide) (by split_ifs <;> norm_num) (by split_ifs <;> norm_num)⟩,
    hone _ _ _ (by decide) (by norm_num) (by norm_num)⟩,
    hone _ _ _ (by decide) (by norm_num) (by norm_num)⟩,
    hone _ _ _ (by decide) (by norm_num) (by norm_num)⟩,
    hone _ _ _ (by decide) (by split_ifs <;> norm_num) (by split_ifs <;> norm_num)⟩,
    hone _ _ _ (by decide) (by norm_num) (by norm_num)⟩,
    hone _ _ _ (by decide) (by split_ifs <;> norm_num) (by split_ifs <;> norm_num)⟩,
    hone _ _ _ (by decide) (by split_ifs <;> norm_num) (by split_ifs <;> norm_num)⟩,
    hpass⟩,
    hone _ _ _ (by decide) (by norm_num) (by norm_num)⟩

theorem detections_names_bounds (t : String) (b : Bool) :
    ∀ d ∈ (detect_document_types_on_page t b).1,
      d.1 ∈ catalogNames ∧ 0 ≤ d.2 ∧ d.2 ≤ 1 := by
  intro d hd
  rw [detect_fst, mem_pySortBy] at hd
  exact rawDetections_names_bounds t d hd

/-- The property each emitted segment satisfies (amended C5). -/
def SegTypeOK (seg : DocumentSegment) : Prop :=
  (seg.doc_type = none ∨ seg.doc_type = some "UNKNOWN" ∨
    ∃ nm ∈ catalogNames, seg.doc_type = some nm) ∧
  0 ≤ seg.confidence ∧ seg.confidence ≤ 1 ∧
  (seg.doc_type = some "UNKNOWN" → seg.pages.length = 1 ∧ seg.confidence = 0.3)

theorem groupGo_seg_types (all : List PageAnalysis) :
    ∀ (l : List PageAnalysis) (cur : List Nat) (t : Option String) (c : ℚ),
      (∀ pa ∈ l, pa.detected_types = (detect_document_types_on_page pa.text).1) →
      (t = none ∨ ∃ nm ∈ catalogNames, t = some nm) → 0 ≤ c → c ≤ 1 →
      ∀ seg ∈ groupGo all l cur t c, SegTypeOK seg := by
  have hcur : ∀ (cur : List Nat) (t : Option String) (c : ℚ),
      (t = none ∨ ∃ nm ∈ catalogNames, t = some nm) → 0 ≤ c → c ≤ 1 →
      SegTypeOK (create_segment cur t c all) := by
    intro cur t c ht hc0 hc1
    refine ⟨?_, hc0, hc1, ?_⟩
    · rcases ht with h | ⟨nm, hnm, h⟩
      · exact Or.inl h
      · exact Or.inr (Or.inr ⟨nm, hnm, h⟩)
    · intro hu
      rcases ht with h | ⟨nm, hnm, h⟩
      · rw [create_segment] at hu
        simp [h] at hu
      · rw [create_segment] at hu
        simp only [h] at hu
        have : nm = "UNKNOWN" := by simpa using hu
        subst this
        exact absurd hnm (by decide)
  intro l
  induction l with
  | nil =>
    intro cur t c _ ht hc0 hc1 seg hseg
    rw [groupGo] at hseg
    split at hseg
    · simp at hseg
    · rw [List.mem_singleton] at hseg
      subst hseg
      exact hcur cur t c ht hc0 hc1
  | cons pa rest ih =>
    intro cur t c hl ht hc0 hc1 seg hseg
    have hl' : ∀ pa' ∈ rest, pa'.detected_types =
        (detect_document_types_on_page pa'.text).1 :=
      fun pa' h => hl pa' (List.mem_cons_of_mem pa h)
    rw [groupGo] at hseg
    by_cases h1 : (pa.detected_types.isEmpty && !pa.is_continuation) = true
    · rw [if_pos h1] at hseg
      rcases List.mem_append.mp hseg with hseg | hseg
      · have : seg = create_segment cur t c all := by
          split at hseg
          · simp at hseg
          · simpa using hseg
        subst this
        exact hcur cur t c ht hc0 hc1
      · rcases List.mem_cons.mp hseg with hseg | hseg
        · subst hseg
          refine ⟨Or.inr (Or.inl rfl), ?_, ?_, fun _ => ⟨rfl, rfl⟩⟩
          · rw [create_segment_confidence]
            norm_num
          · rw [create_segment_confidence]
            norm_num
        · exact ih [] t c hl' ht hc0 hc1 seg hseg
    · rw [if_neg h1] at hseg
      by_cases h2 : (!pa.detected_types.isEmpty && !pa.is_continuation) = true
      · rw [if_pos h2] at hseg
        have hne : pa.detected_types ≠ [] := by
          intro hnil
          rw [Bool.and_eq_true, Bool.not_eq_true'] at h2
          rw [hnil] at h2
          simp at h2
        obtain ⟨hd, tl, hdt⟩ := List.exists_cons_of_ne_nil hne
        have hmem : pa.detected_types.headI ∈
            (detect_document_types_on_page pa.text).1 := by
          rw [← hl pa (List.mem_cons_self pa rest), hdt]
          exact List.mem_cons_self _ _
        have hb := detections_names_bounds pa.text false _ hmem
        rcases List.mem_append.mp hseg with hseg | hseg
        · have : seg = create_segment cur t c all := by
            split at hseg
            · simp at hseg
            · simpa using hseg
          subst this
          exact hcur cur t c ht hc0 hc1
        · exact ih [pa.page_num] (some pa.detected_types.headI.1)
            pa.detected_types.headI.2 hl'
            (Or.inr ⟨pa.detected_types.headI.1, hb.1, rfl⟩) hb.2.1 hb.2.2 seg hseg
      · rw [if_neg h2] at hseg
        exact ih (cur ++ [pa.page_num]) t c hl' ht hc0 hc1 seg hseg

theorem groupGo_some_no_none (all : List PageAnalysis) :
    ∀ (l : List PageAnalysis) (cur : List Nat) (nm : String) (c : ℚ),
      ∀ seg ∈ groupGo all l cur (some nm) c, seg.doc_type ≠ none := by
  intro l
  induction l with
  | nil =>
    intro cur nm c seg hseg
    rw [groupGo] at hseg
    split at hseg
    · simp at hseg
    · rw [List.mem_singleton] at hseg
      subst hseg
      rw [create_segment_doc_type]
      simp
  | cons pa rest ih =>
    intro cur nm c seg hseg
    rw [groupGo] at hseg
    by_cases h1 : (pa.detected_types.isEmpty && !pa.is_continuation) = true
    · rw [if_pos h1] at hseg
      rcases List.mem_append.mp hseg with hseg | hseg
      · have : seg = create_segment cur (some nm) c all := by
          split at hseg
          · simp at hseg
          · simpa using hseg
        subst this
        rw [create_segment_doc_type]
        simp
      · rcases List.mem_cons.mp hseg with hseg | hseg
        · subst hseg
          rw [create_segment_doc_type]
          simp
        · exact ih [] nm c seg hseg
    · rw [if_neg h1] at hseg
      by_cases h2 : (!pa.detected_types.isEmpty && !pa.is_continuation) = true
      · rw [if_pos h2] at hseg
        rcases List.mem_append.mp hseg with hseg | hseg
        · have : seg = create_segment cur (some nm) c all := by
            split at hseg
            · simp at hseg
            · simpa using hseg
          subst this
          rw [create_segment_doc_type]
          simp
        · exact ih [pa.page_num] _ _ seg hseg
      · rw [if_neg h2] at hseg
        exact ih (cur ++ [pa.page_num]) nm c seg hseg

theorem groupGo_none_typed (all : List PageAnalysis) :
    ∀ (l : List PageAnalysis) (cur : List Nat) (c : ℚ),
      ∀ seg ∈ groupGo all l cur none c, seg.doc_type = none →
        seg.confidence = c ∧
        seg.pages ⊆ cur ++ (l.takeWhile
          (fun pa => pa.detected_types.isEmpty || pa.is_continuation)).map
          (·.page_num) := by
  intro l
  induction l with
  | nil =>
    intro cur c seg hseg _
    rw [groupGo] at hseg
    split at hseg
    · simp at hseg
    · rw [List.mem_singleton] at hseg
      subst hseg
      refine ⟨create_segment_confidence _ _ _ _, ?_⟩
      rw [create_segment_pages, List.takeWhile_nil]
      exact List.subset_append_left cur []
  | cons pa rest ih =>
    intro cur c seg hseg hnone
    rw [groupGo] at hseg
    by_cases h1 : (pa.detected_types.isEmpty && !pa.is_continuation) = true
    · rw [if_pos h1] at hseg
      have hpred : (pa.detected_types.isEmpty || pa.is_continuation) = true := by
        rw [Bool.and_eq_true] at h1
        rw [h1.1]
        rfl
      rw [@List.takeWhile_cons_of_pos _
        (fun pa => pa.detected_types.isEmpty || pa.is_continuation) pa rest hpred]
      rcases List.mem_append.mp hseg with hseg | hseg
      · have : seg = create_segment cur none c all := by
          split at hseg
          · simp at hseg
          · simpa using hseg
        subst this
        refine ⟨create_segment_confidence _ _ _ _, ?_⟩
        rw [create_segment_pages]
        exact List.subset_append_left cur _
      · rcases List.mem_cons.mp hseg with hseg | hseg
        · subst hseg
          rw [create_segment_doc_type] at hnone
          simp at hnone
        · obtain ⟨hc, hsub⟩ := ih [] c seg hseg hnone
          refine ⟨hc, fun x hx => ?_⟩
          have := hsub hx
          rw [List.nil_append] at this
          exact List.mem_append.mpr
            (Or.inr (List.mem_cons_of_mem _ this))
    · rw [if_neg h1] at hseg
      by_cases h2 : (!pa.detected_types.isEmpty && !pa.is_continuation) = true
      · rw [if_pos h2] at hseg
        have hpred : ¬ (pa.detected_types.isEmpty || pa.is_continuation) = true := by
          simp only [Bool.and_eq_true, Bool.not_eq_true'] at h2
          rw [h2.1, h2.2]
          simp
        rw [@List.takeWhile_cons_of_neg _
          (fun pa => pa.detected_types.isEmpty || pa.is_continuation) pa rest hpred]
        rcases List.mem_append.mp hseg with hseg | hseg
        · have : seg = create_segment cur none c all := by
            split at hseg
            · simp at hseg
            · simpa using hseg
          subst this
          refine ⟨create_segment_confidence _ _ _ _, ?_⟩
          rw [create_segment_pages]
          exact List.subset_append_left cur _
        · exact absurd hnone
            (groupGo_some_no_none all rest [pa.page_num] _ _ seg hseg)
      · rw [if_neg h2] at hseg
        have hcont : pa.is_continuation = true := by
          by_contra hc
          rw [Bool.not_eq_true] at hc
          cases he : pa.detected_types.isEmpty
          · exact h2 (by rw [he, hc]; rfl)
          · exact h1 (by rw [he, hc]; rfl)
        have hpred : (pa.detected_types.isEmpty || pa.is_continuation) = true := by
          rw [hcont]
          simp
        rw [@List.takeWhile_cons_of_pos _
          (fun pa => pa.detected_types.isEmpty || pa.is_continuation) pa rest hpred]
        obtain ⟨hc, hsub⟩ := ih (cur ++ [pa.page_num]) c seg hseg hnone
        refine ⟨hc, fun x hx => ?_⟩
        have := hsub hx
        rw [List.append_assoc] at this
        simpa using this

/-- C5 counterexample: a single blank page is a continuation page with no
detections, so the grouper emits one segment whose `doc_type` is `None`
(the initialised `current_doc_type`) — neither a catalog name nor
`"UNKNOWN"`, contradicting the claim. -/
theorem segment_type_claim_counterexample :
    ∃ seg ∈ group_pages_into_documents [analysisOfText 0 ""],
      knownOrUnknownType seg.doc_type = false := by decide

/-- C5 (amended): for page analyses produced from page texts by the
classifier, every emitted segment's `doc_type` is a catalog name,
`"UNKNOWN"`, or `None`, its confidence lies in [0, 1], `UNKNOWN` segments
are standalone one-page segments of fixed confidence 0.3, and a
`None`-typed segment carries the initialised confidence 0 and consists
only of pages preceding the first page that has detections and is not a
continuation (i.e. it was accumulated before any detection started a
segment). -/
theorem segment_types_known_unknown_or_none (analyses : List PageAnalysis)
    (h : ∀ pa ∈ analyses, pa.detected_types =
      (detect_document_types_on_page pa.text).1) :
    ∀ seg ∈ group_pages_into_documents analyses,
      SegTypeOK seg ∧
      (seg.doc_type = none → seg.confidence = 0 ∧
        seg.pages ⊆ (analyses.takeWhile
          (fun pa => pa.detected_types.isEmpty || pa.is_continuation)).map
          (·.page_num)) := by
  intro seg hseg
  refine ⟨groupGo_seg_types analyses analyses [] none 0 h (Or.inl rfl) le_rfl
    (by norm_num) seg hseg, ?_⟩
  intro hnone
  obtain ⟨hc, hsub⟩ := groupGo_none_typed analyses analyses [] 0 seg hseg hnone
  refine ⟨hc, fun x hx => ?_⟩
  have := hsub hx
  rwa [List.nil_append] at this

/-- Witness for the amended C5 at a concrete two-page input. -/
theorem segment_types_known_unknown_or_none_witness :
    (∀ pa ∈ [analysisOfText 0 "", analysisOfText 1 "passport"],
      pa.detected_types = (detect_document_types_on_page pa.text).1) ∧
    ∀ seg ∈ group_pages_into_documents
      [analysisOfText 0 "", analysisOfText 1 "passport"],
      SegTypeOK seg ∧
      (seg.doc_type = none → seg.confidence = 0 ∧
        seg.pages ⊆ (([analysisOfText 0 "", analysisOfText 1 "passport"].takeWhile
          (fun pa => pa.detected_types.isEmpty || pa.is_continuation)).map
          (·.page_num))) := by
  have h : ∀ pa ∈ [analysisOfText 0 "", analysisOfText 1 "passport"],
      pa.detected_types = (detect_document_types_on_page pa.text).1 := by
    intro pa hpa
    rcases List.mem_cons.mp hpa with rfl | hpa
    · rfl
    · rcases List.mem_cons.mp hpa with rfl | hpa
      · rfl
      · simp at hpa
  exact ⟨h, segment_types_known_unknown_or_none _ h⟩

/-! ### Same (name, DOB) pairs merge into one record (C2) -/

/-- C2: consolidating two segment results that resolve to the same person
name and the same date of birth (possibly both absent) produces exactly
one key in `person_records`, whose record's documents list contains both
segments' document entries in order — never two separate records. -/
theorem same_name_dob_single_record (s1 s2 : SegmentResult) (n : String)
    (d : Option String)
    (h1 : resolvePersonName s1 = some n) (h2 : resolveDob s1.extracted_data = d)
    (h3 : resolvePersonName s2 = some n) (h4 : resolveDob s2.extracted_data = d) :
    ∃ r : PersonRecord,
      consolidate_person_data s2 (consolidate_person_data s1 []) =
        [(personKey n d, r)] ∧
      r.documents = [docEntryOf s1, docEntryOf s2] := by
  simp only [consolidate_person_data, h1, h2, h3, h4]
  cases hta1 : timelineAddition s1 with
  | nil =>
    cases hta2 : timelineAddition s2 with
    | nil =>
      simp [getRecord, setRecord, check_person_data_consistency, docName,
        docDob, docCountry, updateRecord, hta1, hta2]
    | cons e es =>
      simp [getRecord, setRecord, check_person_data_consistency, docName,
        docDob, docCountry, updateRecord, hta1, hta2]
  | cons e1 es1 =>
    cases hta2 : timelineAddition s2 with
    | nil =>
      simp [getRecord, setRecord, check_person_data_consistency, docName,
        docDob, docCountry, updateRecord, hta1, hta2]
    | cons e es =>
      simp [getRecord, setRecord, check_person_data_consistency, docName,
        docDob, docCountry, updateRecord, hta1, hta2]

/-- Witness for C2: an I-797 and an EAD for the same person and DOB. -/
theorem same_name_dob_single_record_witness :
    (resolvePersonName ⟨"I797", [1],
        [("beneficiary", "John Doe"), ("date_of_birth", "1990-05-06")]⟩ =
      some "John Doe") ∧
    (resolveDob [("beneficiary", "John Doe"), ("date_of_birth", "1990-05-06")] =
      some "1990-05-06") ∧
    (resolvePersonName ⟨"EAD", [2],
        [("full_name", "John Doe"), ("birth_date", "1990-05-06")]⟩ =
      some "John Doe") ∧
    (resolveDob [("full_name", "John Doe"), ("birth_date", "1990-05-06")] =
      some "1990-05-06") ∧
    ∃ r : PersonRecord,
      consolidate_person_data
          ⟨"EAD", [2], [("full_name", "John Doe"), ("birth_date", "1990-05-06")]⟩
          (consolidate_person_data
            ⟨"I797", [1], [("beneficiary", "John Doe"), ("date_of_birth", "1990-05-06")]⟩
            []) =
        [(personKey "John Doe" (some "1990-05-06"), r)] ∧
      r.documents =
        [docEntryOf ⟨"I797", [1],
          [("beneficiary", "John Doe"), ("date_of_birth", "1990-05-06")]⟩,
         docEntryOf ⟨"EAD", [2],
          [("full_name", "John Doe"), ("birth_date", "1990-05-06")]⟩] :=
  ⟨by decide, by decide, by decide, by decide,
   same_name_dob_single_record _ _ "John Doe" (some "1990-05-06")
     (by decide) (by decide) (by decide) (by decide)⟩

/-! ### Timeline sortedness, stability and parse-consistency (C3) -/

theorem keepDateAsc_total (a b : TimelineEntry) :
    keepDateAsc a b = true ∨ keepDateAsc b a = true :=
  PDate.le_total a.parsed_date b.parsed_date

theorem keepDateAsc_trans (a b c : TimelineEntry)
    (h₁ : keepDateAsc a b = true) (h₂ : keepDateAsc b c = true) :
    keepDateAsc a c = true :=
  PDate.le_trans h₁ h₂

theorem check_consistency_timeline (r : PersonRecord) :
    (check_person_data_consistency r).timeline = r.timeline := by
  unfold check_person_data_consistency
  split <;> rfl

theorem check_consistency_documents (r : PersonRecord) :
    (check_person_data_consistency r).documents = r.documents := by
  unfold check_person_data_consistency
  split <;> rfl

theorem getRecord_mem (recs : List (String × PersonRecord)) (k : String)
    (r : PersonRecord) (h : getRecord recs k = some r) : (k, r) ∈ recs := by
  induction recs with
  | nil => simp [getRecord] at h
  | cons kv rest ih =>
    rw [getRecord] at h
    split at h
    · rename_i heq
      rw [Option.some.injEq] at h
      subst h
      rw [← heq]
      exact List.mem_cons_self _ _
    · exact List.mem_cons_of_mem _ (ih h)

theorem getRecord_nil (k : String) :
    getRecord ([] : List (String × PersonRecord)) k = none := rfl

theorem getRecord_cons (kv : String × PersonRecord)
    (rest : List (String × PersonRecord)) (k : String) :
    getRecord (kv :: rest) k =
      if kv.1 = k then some kv.2 else getRecord rest k := rfl

theorem getRecord_setRecord (recs : List (String × PersonRecord)) (k : String)
    (r : PersonRecord) (k' : String) :
    getRecord (setRecord recs k r) k' =
      if k' = k then some r else getRecord recs k' := by
  induction recs with
  | nil =>
    rw [setRecord, getRecord_cons, getRecord_nil]
    by_cases h : k = k'
    · rw [if_pos h, if_pos h.symm]
    · rw [if_neg h, if_neg (fun hc => h hc.symm)]
  | cons kv rest ih =>
    rw [setRecord]
    by_cases hk : kv.1 = k
    · rw [if_pos hk, getRecord_cons]
      by_cases h : k = k'
      · rw [if_pos h, if_pos h.symm]
      · rw [if_neg h, if_neg (fun hc => h hc.symm), getRecord_cons,
          if_neg (hk ▸ h)]
    · rw [if_neg hk, getRecord_cons, getRecord_cons, ih]
      by_cases h1 : kv.1 = k'
      · have h2 : ¬ k' = k := fun hc => hk (h1.trans hc)
        rw [if_pos h1, if_neg h2, if_pos h1]
      · by_cases h2 : k' = k
        · rw [if_neg h1, if_pos h2, if_pos h2]
        · rw [if_neg h1, if_neg h2, if_neg h2, if_neg h1]

theorem mem_setRecord (recs : List (String × PersonRecord)) (k : String)
    (r : PersonRecord) :
    ∀ kv ∈ setRecord recs k r, kv = (k, r) ∨ kv ∈ recs := by
  induction recs with
  | nil =>
    intro kv hkv
    rw [setRecord] at hkv
    exact Or.inl (List.mem_singleton.mp hkv)
  | cons kv0 rest ih =>
    intro kv hkv
    rw [setRecord] at hkv
    split at hkv
    · rcases List.mem_cons.mp hkv with h | h
      · exact Or.inl h
      · exact Or.inr (List.mem_cons_of_mem _ h)
    · rcases List.mem_cons.mp hkv with h | h
      · exact Or.inr (h ▸ List.mem_cons_self _ _)
      · rcases ih kv h with h' | h'
        · exact Or.inl h'
        · exact Or.inr (List.mem_cons_of_mem _ h')

theorem parse_date_flexible_none : parse_date_flexible none = none := rfl

theorem timelineAddition_parses (seg : SegmentResult) :
    ∀ e ∈ timelineAddition seg,
      parse_date_flexible (some e.date) = some e.parsed_date := by
  intro e he
  simp only [timelineAddition] at he
  cases hp : parse_date_flexible (resolveDocDate seg.extracted_data) with
  | none =>
    rw [hp] at he
    simp at he
  | some pd =>
    rw [hp] at he
    rw [List.mem_singleton] at he
    subst he
    cases hro : resolveDocDate seg.extracted_data with
    | none =>
      rw [hro, parse_date_flexible_none] at hp
      exact absurd hp (by simp)
    | some raw =>
      rw [hro] at hp
      simpa using hp

theorem updateRecord_timeline_nil (r0 : PersonRecord) (seg : SegmentResult)
    (h : timelineAddition seg = []) :
    (updateRecord r0 seg).timeline = r0.timeline := by
  unfold updateRecord
  rw [h]

theorem updateRecord_timeline_cons (r0 : PersonRecord) (seg : SegmentResult)
    (e : TimelineEntry) (es : List TimelineEntry)
    (h : timelineAddition seg = e :: es) :
    (updateRecord r0 seg).timeline =
      pySortBy keepDateAsc (r0.timeline ++ e :: es) := by
  unfold updateRecord
  rw [h]

theorem updateRecord_documents (r0 : PersonRecord) (seg : SegmentResult) :
    (updateRecord r0 seg).documents = r0.documents ++ [docEntryOf seg] := by
  unfold updateRecord
  cases h : timelineAddition seg <;> rfl

theorem timelineOK_pySort (tl adds : List TimelineEntry)
    (htl : TimelineOK tl)
    (hadds : ∀ e ∈ adds, parse_date_flexible (some e.date) = some e.parsed_date) :
    TimelineOK (pySortBy keepDateAsc (tl ++ adds)) := by
  constructor
  · exact pairwise_pySortBy keepDateAsc keepDateAsc_total keepDateAsc_trans _
  · intro e he
    rw [mem_pySortBy] at he
    rcases List.mem_append.mp he with h | h
    · exact htl.2 e h
    · exact hadds e h

/-- C3: `consolidate_person_data` preserves the timeline invariant — every
record's timeline stays sorted ascending by `parsed_date` and contains
only entries whose raw date string successfully parses to the stored
parsed date (unparseable dates are never inserted) — and the update is a
stable sort: for every parsed date, the entries carrying that date in the
updated timeline are exactly the old ones followed by the new one, in
insertion order. -/
theorem timeline_sorted_stable_invariant (seg : SegmentResult)
    (recs : List (String × PersonRecord)) (hinv : RecordsOK recs) :
    RecordsOK (consolidate_person_data seg recs) ∧
    ∀ key r', getRecord (consolidate_person_data seg recs) key = some r' →
      ∀ dt : PDate,
        r'.timeline.filter (fun e => decide (e.parsed_date = dt)) =
          ((((getRecord recs key).map (·.timeline)).getD []) ++
            (if resolvedKey seg = some key then timelineAddition seg else [])).filter
            (fun e => decide (e.parsed_date = dt)) := by
  have hcompat : ∀ (dt : PDate) (a b : TimelineEntry),
      decide (a.parsed_date = dt) = true → decide (b.parsed_date = dt) = true →
      keepDateAsc a b = true := by
    intro dt a b ha hb
    rw [decide_eq_true_eq] at ha hb
    rw [keepDateAsc, ha, hb]
    exact PDate.le_refl dt
  cases hn : resolvePersonName seg with
  | none =>
    have hunch : consolidate_person_data seg recs = recs := by
      unfold consolidate_person_data
      rw [hn]
    rw [hunch]
    refine ⟨hinv, ?_⟩
    intro key r' hget dt
    rw [hget]
    have hres : resolvedKey seg = none := by
      rw [resolvedKey, hn]
      rfl
    rw [hres]
    simp
  | some n =>
    have hkey : resolvedKey seg = some (personKey n (resolveDob seg.extracted_data)) := by
      rw [resolvedKey, hn]
      rfl
    have hstep : consolidate_person_data seg recs =
        setRecord recs (personKey n (resolveDob seg.extracted_data))
          (check_person_data_consistency
            (updateRecord
              ((getRecord recs (personKey n (resolveDob seg.extracted_data))).getD
                ⟨n, resolveDob seg.extracted_data, [], [], []⟩) seg)) := by
      unfold consolidate_person_data
      rw [hn]
    have hr0tl : TimelineOK
        (((getRecord recs (personKey n (resolveDob seg.extracted_data))).getD
          ⟨n, resolveDob seg.extracted_data, [], [], []⟩).timeline) := by
      cases hget0 : getRecord recs (personKey n (resolveDob seg.extracted_data)) with
      | none => exact ⟨List.Pairwise.nil, by intro e he; simp at he⟩
      | some rOld => exact hinv _ (getRecord_mem _ _ _ hget0)
    have hupdtl : TimelineOK
        ((updateRecord
          ((getRecord recs (personKey n (resolveDob seg.extracted_data))).getD
            ⟨n, resolveDob seg.extracted_data, [], [], []⟩) seg).timeline) := by
      cases hta : timelineAddition seg with
      | nil =>
        rw [updateRecord_timeline_nil _ _ hta]
        exact hr0tl
      | cons e es =>
        rw [updateRecord_timeline_cons _ _ _ _ hta]
        exact timelineOK_pySort _ _ hr0tl (hta ▸ timelineAddition_parses seg)
    rw [hstep]
    constructor
    · intro kv hkv
      rcases mem_setRecord _ _ _ kv hkv with h | h
      · rw [h]
        show TimelineOK (check_person_data_consistency _).timeline
        rw [check_consistency_timeline]
        exact hupdtl
      · exact hinv kv h
    · intro key r' hget dt
      rw [getRecord_setRecord] at hget
      by_cases hk : key = personKey n (resolveDob seg.extracted_data)
      · rw [if_pos hk] at hget
        obtain rfl := Option.some_inj.mp hget
        rw [check_consistency_timeline, hk, hkey, if_pos rfl]
        cases hta : timelineAddition seg with
        | nil =>
          rw [updateRecord_timeline_nil _ _ hta]
          cases hget0 : getRecord recs (personKey n (resolveDob seg.extracted_data)) with
          | none => simp
          | some rOld => simp
        | cons e es =>
          rw [updateRecord_timeline_cons _ _ _ _ hta,
            filter_pySortBy keepDateAsc _ keepDateAsc_total keepDateAsc_trans
              (hcompat dt)]
          cases hget0 : getRecord recs (personKey n (resolveDob seg.extracted_data)) with
          | none => simp
          | some rOld => simp
      · rw [if_neg hk] at hget
        rw [hget, hkey, if_neg (fun hc => hk (Option.some_inj.mp hc).symm)]
        simp

/-- Witness for C3 on the empty record map and one concrete segment. -/
theorem timeline_sorted_stable_invariant_witness :
    RecordsOK ([] : List (String × PersonRecord)) ∧
    (RecordsOK (consolidate_person_data
        ⟨"I797", [1], [("beneficiary", "John Doe"), ("notice_date", "2024-01-01")]⟩ []) ∧
      ∀ key r', getRecord (consolidate_person_data
          ⟨"I797", [1], [("beneficiary", "John Doe"), ("notice_date", "2024-01-01")]⟩ [])
          key = some r' →
        ∀ dt : PDate,
          r'.timeline.filter (fun e => decide (e.parsed_date = dt)) =
            ((((getRecord ([] : List (String × PersonRecord)) key).map
                (·.timeline)).getD []) ++
              (if resolvedKey ⟨"I797", [1],
                  [("beneficiary", "John Doe"), ("notice_date", "2024-01-01")]⟩ =
                  some key then
                timelineAddition ⟨"I797", [1],
                  [("beneficiary", "John Doe"), ("notice_date", "2024-01-01")]⟩
              else [])).filter (fun e => decide (e.parsed_date = dt))) :=
  have h0 : RecordsOK ([] : List (String × PersonRecord)) := by
    intro kv hkv
    exact absurd hkv (List.not_mem_nil kv)
  ⟨h0, timeline_sorted_stable_invariant _ [] h0⟩

/-! ### The recorded `ocr_used` flag (C7)

`analyze_pdf_by_pages` calls `detect_document_types_on_page(page_text)`
without forwarding whether `get_page_text` fell back to EasyOCR, so the
recorded flag is the parameter default `False` even on OCR-produced
text. -/

/-- C7 evaluated at a failing input: a page whose embedded text layer is
empty, so `get_page_text` uses the EasyOCR fallback (`pageUsedOCR` is
`true`), yet the per-page diagnostics trace records `ocr_used = false`. -/
theorem ocr_flag_never_recorded :
    pageUsedOCR ⟨"", "exhibit 1"⟩ = true ∧
    (analyze_pdf_by_pages [⟨"", "exhibit 1"⟩]).2.map
      (fun e => e.diagnostics.ocr_used) = [false] := by
  exact ⟨rfl, rfl⟩

end ImmigrationAudit

